import Mathlib

/-!
Verification development for the generic web scraper (`scraper.py`).

The Python source is shallowly embedded: pure helper functions become Lean
functions over `String` / `List Char`; the browser, the hash primitive and the
lenient date library are external collaborators and appear as explicit
parameters (`Except`-valued fetch results, a `String → String` hex-digest
function, a `String → Option PyDateTime` date reader); `datetime` instants are
modelled as integer epoch seconds with floor division (Python `//` / `%` on a
positive divisor coincide with `Int.ediv` / `Int.emod`).
-/

/-! ## A small regular-expression engine

`_is_likely_article_url` applies `re.search` to hard-coded patterns.  The
patterns only use literal characters, character classes (`\d`, `\w`, `[^/]`),
concatenation, `?`, `+`/`{n,}` on a class, and the `$` anchor, so the engine
below supports exactly those constructs.  `research r s` is `re.search`
returning a boolean: does `r` match at some position of `s`?
(The inputs are URLs, hence newline-free, so `$` is plain end-of-input.) -/

inductive Rx where
  | eps : Rx
  | cls : (Char → Bool) → Rx
  | cat : Rx → Rx → Rx
  | opt : Rx → Rx
  | plus : (Char → Bool) → Rx
  | eos : Rx

/-- One-or-more tail: after the first mandatory class character, either stop
here (continuation) or consume another matching character. -/
def matMany (p : Char → Bool) (k : List Char → Bool) : List Char → Bool
  | [] => k []
  | c :: rest => k (c :: rest) || (p c && matMany p k rest)

/-- Continuation-passing matcher: `mat r s k` holds iff some prefix of `s` is
matched by `r` and `k` accepts the remaining suffix. -/
def mat : Rx → List Char → (List Char → Bool) → Bool
  | .eps, s, k => k s
  | .cls p, s, k =>
      match s with
      | [] => false
      | c :: rest => p c && k rest
  | .cat a b, s, k => mat a s (fun s1 => mat b s1 k)
  | .opt a, s, k => k s || mat a s k
  | .plus p, s, k =>
      match s with
      | [] => false
      | c :: rest => p c && matMany p k rest
  | .eos, s, k => s.isEmpty && k s

/-- Boolean `re.search`: try to match `r` at every start position. -/
def research (r : Rx) : List Char → Bool
  | [] => mat r [] (fun _ => true)
  | c :: rest => mat r (c :: rest) (fun _ => true) || research r rest

/-- A single literal character. -/
def chr (c : Char) : Rx := Rx.cls (fun x => x == c)

/-- Sequence a list of regexes. -/
def rcat (l : List Rx) : Rx := l.foldr Rx.cat Rx.eps

/-- A literal string. -/
def lits (s : String) : Rx := rcat (s.data.map chr)

/-- Exactly `n` copies of a regex. -/
def rep : Nat → Rx → Rx
  | 0, _ => Rx.eps
  | n + 1, r => Rx.cat r (rep n r)

/-- Python `\d`. -/
def rdigit : Rx := Rx.cls Char.isDigit

/-- Python `\w` (ASCII view: the URLs handled here are ASCII). -/
def isWordChar (c : Char) : Bool := c.isAlphanum || c == '_'

/-- Python `(?:\.html?)?` as used by several exclude patterns. -/
def optHtmlExt : Rx := Rx.opt (rcat [lits ".htm", Rx.opt (chr 'l')])

/-- The pattern `r'/$'` from the definite-exclude table. -/
def slashEndRx : Rx := rcat [chr '/', Rx.eos]

/-! ## Python string / URL helpers -/

/-- Python's substring test `needle in hay`. -/
def containsSub (needle : List Char) : List Char → Bool
  | [] => List.isPrefixOf needle []
  | c :: rest => List.isPrefixOf needle (c :: rest) || containsSub needle rest

/-- ASCII `str.lower` (the classifier only ever lowercases URLs). -/
def pyLowerChar (c : Char) : Char :=
  if 'A' ≤ c && c ≤ 'Z' then Char.ofNat (c.toNat + 32) else c

/-- Split off the longest prefix whose characters all fail `p`; the second
component starts with the first character satisfying `p` (if any). -/
def breakOn (p : Char → Bool) : List Char → List Char × List Char
  | [] => ([], [])
  | c :: rest =>
      if p c then ([], c :: rest)
      else
        let (a, b) := breakOn p rest
        (c :: a, b)

/-- Python `str.split(sep)`: keeps empty fields, never returns `[]`. -/
def splitKeep (sep : Char) : List Char → List (List Char)
  | [] => [[]]
  | c :: rest =>
      if c == sep then [] :: splitKeep sep rest
      else
        match splitKeep sep rest with
        | [] => [[c]]
        | h :: t => (c :: h) :: t

/-- Characters Python's `urlparse` allows in a scheme (after the first). -/
def isSchemeChar (c : Char) : Bool := c.isAlphanum || c == '+' || c == '-' || c == '.'

structure UrlParts where
  netloc : List Char
  path : List Char
  query : List Char
deriving DecidableEq

/-- Model of `urllib.parse.urlparse` restricted to the three components the
classifier reads (`netloc`, `path`, `query`). -/
def pyUrlparse (s : List Char) : UrlParts :=
  let rest :=
    match breakOn (fun c => c == ':') s with
    | (before, ':' :: after) =>
        if !before.isEmpty && before.all isSchemeChar then after else s
    | _ => s
  let (netloc, rest2) :=
    if List.isPrefixOf ['/', '/'] rest then
      breakOn (fun c => c == '/' || c == '?' || c == '#') (rest.drop 2)
    else ([], rest)
  let (rest3, _) := breakOn (fun c => c == '#') rest2
  let (path, qpart) := breakOn (fun c => c == '?') rest3
  let query := match qpart with | '?' :: t => t | _ => []
  { netloc := netloc, path := path, query := query }

/-! ## The classifier's pattern tables (`_is_likely_article_url`) -/

/-- The `definite_excludes` regex table, pattern for pattern. -/
def definite_excludes : List Rx :=
  [ lits "/search", lits "/login", lits "/register", lits "/signup",
    rcat [lits "/contact", Rx.eos],
    rcat [lits "/about", Rx.eos],
    lits "/privacy", lits "/terms", lits "/cookie", lits "/legal",
    lits "/sitemap", lits "/robots.txt", lits "/favicon",
    lits ".css", lits ".js",
    lits ".pdf", lits ".doc", lits ".zip", lits ".exe",
    lits "/feed", lits "/rss",
    rcat [lits "/tag", Rx.opt (chr 's'), chr '/', Rx.eos],
    rcat [lits "/category/", Rx.eos],
    rcat [lits "/author/", Rx.eos],
    rcat [lits "/user/", Rx.eos],
    lits "/wp-admin", lits "/admin", lits "/dashboard", lits "/settings",
    chr '#', lits "mailto:", lits "tel:", lits "ftp:", lits "/print",
    rcat [lits "/download", Rx.opt (chr 's'), optHtmlExt, Rx.eos],
    rcat [lits "/newsletter", optHtmlExt, Rx.eos],
    rcat [lits "/fairs", optHtmlExt, Rx.eos],
    lits "/data-protection", lits "/driving-directions",
    lits "/safety-data-sheets", lits "/datanorm-gaeb",
    lits "/invitation-to-tender",
    lits "/warning-placard", lits "/helpful-forms",
    rcat [lits "/technical-information", optHtmlExt, Rx.eos],
    rcat [lits "/download-brochures", optHtmlExt, Rx.eos],
    rcat [lits "/index.htm", Rx.opt (chr 'l'), Rx.eos],
    slashEndRx,
    rcat [lits "/en", Rx.opt (chr '/'), Rx.eos] ]

/-- The `strong_signals` regex table. -/
def strong_signals : List Rx :=
  [ lits "/article/", lits "/post/", lits "/news/", lits "/blog/", lits "/story/",
    lits "/read/", lits "/view/", lits "/details/", lits "/full/", lits "/referenzen/",
    rcat [chr '/', rep 4 rdigit, chr '/', rep 2 rdigit, chr '/', rep 2 rdigit, chr '/'],
    rcat [chr '/', rep 4 rdigit, chr '/', rep 2 rdigit, chr '/'],
    rcat [chr '/', rep 4 rdigit, chr '/'],
    rcat [chr '-', rep 4 rdigit, chr '-', rep 2 rdigit, chr '-', rep 2 rdigit],
    rcat [chr '-', rep 4 rdigit, chr '-', rep 2 rdigit],
    rcat [chr '-', rep 4 rdigit],
    rcat [lits "/project", Rx.opt (chr 's'), lits "-of-the-month"] ]

/-- The `medium_signals` regex table (`[^/]{10,}` is nine exact non-slash
characters followed by one-or-more). -/
def medium_signals : List Rx :=
  [ rcat [lits ".html", Rx.eos],
    rcat [lits ".htm", Rx.eos],
    rcat [chr '/', Rx.plus isWordChar, chr '/', Rx.plus isWordChar],
    rcat [chr '/', rep 9 (Rx.cls (fun c => c != '/')), Rx.plus (fun c => c != '/')],
    lits "/entry/", lits "/item/", lits "/content/", lits "/page/" ]

/-- The `content_keywords` substring table. -/
def content_keywords : List String :=
  [ "breaking", "exclusive", "report", "analysis", "interview",
    "feature", "opinion", "editorial", "review", "update",
    "announcement", "launch", "release", "study", "research",
    "restoration", "designer", "defense", "tower", "underfloor",
    "heating", "kindergarten", "vienna", "france", "tamasi",
    "banking", "aegean", "hotel", "church", "refurbishment",
    "dream", "sustainable", "living" ]

/-- `GenericWebScraper._is_likely_article_url`, generalised over the exclude
and strong-signal tables (the source holds the two tables in local
constants; `is_likely_article_url` below instantiates them).  The source's
intermediate locals (`url_lower`, `parsed_url`, `parsed_base`,
`has_medium_signal`, `has_content_keyword`, `path_parts`) are written
inline; the boolean signals are pure, so computing them at their use sites
instead of up front does not change the verdict. -/
def is_likely_article_url_tables (excl strong : List Rx) (url base_url : String) : Bool :=
  if url.data.isEmpty then false
  else if List.isPrefixOf ['#'] url.data then false
  else if containsSub "javascript:".data url.data then false
  else if (pyUrlparse url.data).netloc ≠ (pyUrlparse base_url.data).netloc then false
  else if excl.any (fun r => research r (url.data.map pyLowerChar)) then false
  else if strong.any (fun r => research r (url.data.map pyLowerChar)) then true
  else if ((splitKeep '/' (pyUrlparse url.data).path).filter (fun p => !p.isEmpty)).length < 2
            && !(content_keywords.any (fun kw => containsSub kw.data (url.data.map pyLowerChar))) then
    false
  else if (splitKeep '&' (pyUrlparse url.data).query).length > 3 then false
  else
    medium_signals.any (fun r => research r (url.data.map pyLowerChar)) ||
      content_keywords.any (fun kw => containsSub kw.data (url.data.map pyLowerChar))

/-- `GenericWebScraper._is_likely_article_url` with the source's tables. -/
def is_likely_article_url (url base_url : String) : Bool :=
  is_likely_article_url_tables definite_excludes strong_signals url base_url

/-! ## Content extraction (`extract_article_content` and helpers)

A rendered page is embedded as the record of the BeautifulSoup query results
the extractors consult: each field holds what the corresponding `find` /
`select_one` lambda would return (`none` = element absent).  An `Element`
carries its attribute map and its `get_text(strip=True)` text.  The content
methods are embedded as the lists of stripped descendant texts
(`p`/`h1`-`h6`/`li`) of each candidate container, taken after the noise
subtrees have been decomposed, exactly the data the source reads from them. -/

structure Element where
  attrs : List (String × String)
  text : String
deriving DecidableEq

/-- `element.get(key)`: `none` when the attribute is absent. -/
def Element.getA (e : Element) (k : String) : Option String :=
  (e.attrs.find? (fun p => p.1 == k)).map (fun p => p.2)

/-- `element.get(key, default)`. -/
def Element.getD (e : Element) (k : String) (dflt : String) : String :=
  (e.getA k).getD dflt

/-- Python `a or b` on strings (empty string is falsy). -/
def pyOrS (a b : String) : String := if a = "" then b else a

structure Soup where
  metaOgTitle : Option Element
  metaTwitterTitle : Option Element
  h1 : Option Element
  h2 : Option Element
  titleClassSel : Option Element
  titleTag : Option Element
  timeDatetime : Option Element
  metaPublishedTime : Option Element
  metaPubdate : Option Element
  dateClassSel : Option Element
  contentDivClass : Option (List String)
  contentArticle : Option (List String)
  contentMain : Option (List String)
  contentRoleMain : Option (List String)
  contentDivId : Option (List String)
  allPTexts : List String
  metaOgImage : Option Element
  metaTwitterImage : Option Element
  articleImg : Option Element
  firstImg : Option Element
deriving DecidableEq

/-- Python `str.strip()` (ASCII whitespace view): drop leading and trailing
whitespace characters. -/
def pyStrip (s : String) : String :=
  String.mk (((s.data.dropWhile Char.isWhitespace).reverse.dropWhile
    Char.isWhitespace).reverse)

/-- Candidate title from one element: `element.get('content', '') or
element.get_text(strip=True)`. -/
def titleFrom (e : Element) : String := pyOrS (e.getD "content" "") e.text

/-- The title-method loop: first candidate that is non-empty and longer than
5 characters after stripping wins. -/
def goTitle : List (Option Element) → String
  | [] => "No title found"
  | none :: rest => goTitle rest
  | some e :: rest =>
      let t := titleFrom e
      if t ≠ "" ∧ (pyStrip t).length > 5 then pyStrip t else goTitle rest

/-- `GenericWebScraper._extract_title_generic`. -/
def extract_title_generic (soup : Soup) : String :=
  goTitle [soup.metaOgTitle, soup.metaTwitterTitle, soup.h1, soup.h2,
           soup.titleClassSel, soup.titleTag]

/-- Candidate date from one element: `element.get('datetime') or
element.get('content') or element.get_text(strip=True)`. -/
def dateFrom (e : Element) : String :=
  pyOrS (e.getD "datetime" "") (pyOrS (e.getD "content" "") e.text)

/-- The date-method loop: first non-empty candidate wins. -/
def goDate : List (Option Element) → Option String
  | [] => none
  | none :: rest => goDate rest
  | some e :: rest =>
      let d := dateFrom e
      if d ≠ "" then some d else goDate rest

/-- One token of a URL date pattern: a literal character or a capture group of
`n` digits. -/
inductive DTok where
  | lt : Char → DTok
  | grp : Nat → DTok

/-- Match a date pattern at the start of the input, returning the captured
digit groups. -/
def matchDate : List DTok → List Char → Option (List String)
  | [], _ => some []
  | .lt _ :: _, [] => none
  | .lt c :: ts, x :: xs => if x == c then matchDate ts xs else none
  | .grp n :: ts, xs =>
      let g := xs.take n
      if g.length = n ∧ g.all Char.isDigit then
        (matchDate ts (xs.drop n)).map (fun gs => String.mk g :: gs)
      else none

/-- Leftmost match of a date pattern (the `re.search` the fallback uses). -/
def searchDate (ts : List DTok) : List Char → Option (List String)
  | [] => matchDate ts []
  | x :: xs =>
      match matchDate ts (x :: xs) with
      | some gs => some gs
      | none => searchDate ts xs

/-- The `date_patterns` table of `_extract_date_generic`. -/
def date_patterns : List (List DTok) :=
  [ [.lt '/', .grp 4, .lt '/', .grp 2, .lt '/', .grp 2, .lt '/'],
    [.lt '/', .grp 4, .lt '-', .grp 2, .lt '-', .grp 2],
    [.lt '/', .grp 4, .lt '/', .grp 2, .lt '/'],
    [.lt '/', .grp 4, .lt '-', .grp 2] ]

/-- The pattern loop of the URL-date fallback: first pattern with a match
wins, groups joined with `'-'`. -/
def goUrlDate : List (List DTok) → List Char → Option String
  | [], _ => none
  | ts :: rest, u =>
      match searchDate ts u with
      | some gs => some (String.intercalate "-" gs)
      | none => goUrlDate rest u

/-- `GenericWebScraper._extract_date_generic`. -/
def extract_date_generic (soup : Soup) (url : String) : String :=
  match goDate [soup.timeDatetime, soup.metaPublishedTime, soup.metaPubdate,
                soup.dateClassSel] with
  | some d => pyStrip d
  | none =>
      match goUrlDate date_patterns url.data with
      | some d => d
      | none => ""

/-- Join the non-empty stripped texts with newlines. -/
def joinTexts (ts : List String) : String :=
  String.intercalate "\n" (ts.filter (fun t => t ≠ ""))

/-- The content-method loop: first container whose joined text exceeds 100
characters wins. -/
def goContent : List (Option (List String)) → Option String
  | [] => none
  | none :: rest => goContent rest
  | some ts :: rest =>
      let c := joinTexts ts
      if c.length > 100 then some c else goContent rest

/-- `GenericWebScraper._extract_content_generic`. -/
def extract_content_generic (soup : Soup) : String :=
  match goContent [soup.contentDivClass, soup.contentArticle, soup.contentMain,
                   soup.contentRoleMain, soup.contentDivId] with
  | some c => c
  | none =>
      if soup.allPTexts ≠ [] ∧ (joinTexts soup.allPTexts).length > 100 then
        joinTexts soup.allPTexts
      else "No content found"

/-- Scheme of an absolute URL (chars before the first valid `:`), or `""`. -/
def schemeOf (base : List Char) : List Char :=
  match breakOn (fun c => c == ':') base with
  | (before, ':' :: _) =>
      if !before.isEmpty && before.all isSchemeChar then before else []
  | _ => []

/-- Chars of `scheme://netloc` of an absolute URL. -/
def schemeNetloc (base : List Char) : List Char :=
  schemeOf base ++ "://".data ++ (pyUrlparse base).netloc

/-- Directory prefix of a URL (through the last `/` of its whole text). -/
def dirPrefix (base : List Char) : List Char :=
  (base.reverse.dropWhile (fun c => c != '/')).reverse

/-- Model of `urllib.parse.urljoin` for the reference shapes that occur here:
empty, absolute (`scheme://...`), network-path (`//...`), root-relative
(`/...`) and plain relative references. -/
def pyUrljoin (base rel : String) : String :=
  if rel = "" then base
  else if containsSub "://".data rel.data then rel
  else if List.isPrefixOf ['/', '/'] rel.data then
    String.mk (schemeOf base.data) ++ ":" ++ rel
  else if List.isPrefixOf ['/'] rel.data then
    String.mk (schemeNetloc base.data) ++ rel
  else String.mk (dirPrefix base.data) ++ rel

/-- Candidate image source: `element.get('content') or element.get('src') or
element.get('data-src')`. -/
def imageFrom (e : Element) : String :=
  pyOrS (e.getD "content" "") (pyOrS (e.getD "src" "") (e.getD "data-src" ""))

/-- The image-method loop: first non-empty source wins, resolved against the
page URL. -/
def goImage (base_url : String) : List (Option Element) → String
  | [] => ""
  | none :: rest => goImage base_url rest
  | some e :: rest =>
      let s := imageFrom e
      if s ≠ "" then pyUrljoin base_url s else goImage base_url rest

/-- `GenericWebScraper._extract_image_generic`. -/
def extract_image_generic (soup : Soup) (base_url : String) : String :=
  goImage base_url [soup.metaOgImage, soup.metaTwitterImage, soup.articleImg,
                    soup.firstImg]

/-- The five extracted fields plus the page URL, the dict built by
`extract_article_content`. -/
structure ArticleContent where
  title : String
  date : String
  content : String
  image : String
  url : String
deriving DecidableEq

/-- `GenericWebScraper.extract_article_content`.  Fetching and rendering the
article page (`page.goto` + `page.content()`) is the external step that can
raise; it is embedded as the `Except`-valued argument, `Except.error e`
standing for a raised exception with message `e`.  The `except` branch of the
source returns the sentinel record instead of propagating. -/
def extract_article_content (fetched : Except String Soup) (article_url : String) : ArticleContent :=
  match fetched with
  | .ok soup =>
      { title := extract_title_generic soup
        date := extract_date_generic soup article_url
        content := extract_content_generic soup
        image := extract_image_generic soup article_url
        url := article_url }
  | .error e =>
      { title := "Error extracting content"
        date := ""
        content := "Error: " ++ e
        image := ""
        url := article_url }

/-! ## Temporal filter (`_is_within_week_window`) and the default window

A Python `datetime` value is a wall-clock reading plus an optional fixed UTC
offset (`tzinfo`); both are embedded as integer seconds.  The window bounds
the orchestrator passes are timezone-aware UTC datetimes, i.e. plain
instants.  `dateutil.parser.parse` is the external lenient date reader; it is
a parameter, with `none` covering both a `None` result and a raised parse
error (the source treats the two identically). -/

structure PyDateTime where
  wall : Int
  tz : Option Int
deriving DecidableEq

/-- Normalisation performed by the source: a naive datetime gets
`tzinfo=timezone.utc` attached (wall time read as UTC), an aware one is
converted with `astimezone(timezone.utc)`. -/
def toUtc (d : PyDateTime) : Int :=
  match d.tz with
  | none => d.wall
  | some off => d.wall - off

/-- `GenericWebScraper._is_within_week_window`. -/
def is_within_week_window (parse : String → Option PyDateTime)
    (date_str : String) (week_start week_end : Int) : Bool :=
  if date_str = "" then true
  else
    match parse date_str with
    | none => true
    | some d =>
        let p := toUtc d
        decide (week_start ≤ p ∧ p < week_end)

/-- Day index of an instant, `now // 86400` (floor division, as in Python;
on `Int` the `/` notation is `Int.ediv`, which floors for this positive
divisor). -/
def epochDay (t : Int) : Int := t / 86400

/-- Python `datetime.weekday()` on the day of instant `t`: Monday is `0`;
day 0 of the epoch (1970-01-01) was a Thursday, hence the `+ 3`. -/
def pyWeekday (t : Int) : Int := (epochDay t + 3) % 7

/-- The default `week_start` computed by `scrape_single_site`:
`(now - timedelta(days=now.weekday())).replace(hour=0, minute=0, second=0,
microsecond=0)`, i.e. midnight of the Monday of `now`'s week. -/
def defaultWeekStart (now : Int) : Int := (epochDay now - pyWeekday now) * 86400

/-- The default `week_end`: `week_start + timedelta(days=7)`. -/
def defaultWeekEnd (now : Int) : Int := defaultWeekStart now + 7 * 86400

/-! ## Site orchestrator (`scrape_single_site` / `scrape_multiple_sites`)

The external collaborators of one job are collected in `JobEnv`: the clock,
the `hashlib.sha256(...).hexdigest()` primitive and the date reader.  What
the browser produces for one visited site is a `SiteEnv`: the outcome of
navigating to the seed page and collecting its candidate links
(`Except.error` = a raised navigation failure, caught by the source's
site-level `except`), and the rendered article page per candidate URL.
Mutable state (`seen_urls`) is threaded explicitly. -/

structure Article where
  title : String
  date : String
  content : String
  image : String
  url : String
  raw_hash : String
  discovered_at : String
deriving DecidableEq

structure SiteResult where
  base_url : String
  articles : List Article
  error : Option String
  total_articles_found : Nat
  successfully_processed : Nat
  week_start : Int
  week_end : Int
deriving DecidableEq

structure JobEnv where
  parse : String → Option PyDateTime
  hashHex : String → String
  now : Int
  nowIso : String

structure SiteEnv where
  nav : Except String (List String)
  fetchSoup : String → Except String Soup

/-- `seen_urls.add(u)` on the list-as-set model. -/
def addSeen (seen : List String) (u : String) : List String :=
  if u ∈ seen then seen else u :: seen

/-- The candidate loop of `scrape_single_site`: skip URLs already seen, fetch
and extract, drop articles outside the window, attach `raw_hash` and
`discovered_at`, append, and record the URL as seen.  Returns the article
list, the final seen-set and `processed_count`. -/
def processArticles (env : JobEnv) (fetchSoup : String → Except String Soup)
    (week_start week_end : Int) :
    List String → List String → List Article × List String × Nat
  | [], seen => ([], seen, 0)
  | link :: rest, seen =>
      if link ∈ seen then
        processArticles env fetchSoup week_start week_end rest seen
      else
        let ac := extract_article_content (fetchSoup link) link
        if !is_within_week_window env.parse ac.date week_start week_end then
          processArticles env fetchSoup week_start week_end rest seen
        else
          let art : Article :=
            { title := ac.title, date := ac.date, content := ac.content,
              image := ac.image, url := ac.url,
              raw_hash := env.hashHex (ac.title ++ link),
              discovered_at := env.nowIso }
          let out := processArticles env fetchSoup week_start week_end rest (addSeen seen link)
          (art :: out.1, out.2.1, out.2.2 + 1)

/-- `GenericWebScraper.scrape_single_site`.  Returns the result dict and the
final seen-set.  A `none` window resolves to the current UTC calendar week;
a navigation failure is caught and becomes the error-shaped result. -/
def scrape_single_site (env : JobEnv) (site : SiteEnv) (url : String)
    (max_articles : Nat) (week_start? week_end? : Option Int)
    (seen : List String) : SiteResult × List String :=
  let wswe :=
    match week_start?, week_end? with
    | some a, some b => (a, b)
    | _, _ => (defaultWeekStart env.now, defaultWeekEnd env.now)
  match site.nav with
  | .error e =>
      ({ base_url := url, articles := [], error := some e,
         total_articles_found := 0, successfully_processed := 0,
         week_start := wswe.1, week_end := wswe.2 }, seen)
  | .ok links0 =>
      let links :=
        if max_articles ≠ 0 ∧ links0.length > max_articles then
          links0.take max_articles
        else links0
      let out := processArticles env site.fetchSoup wswe.1 wswe.2 links seen
      ({ base_url := url, articles := out.1, error := none,
         total_articles_found := links.length,
         successfully_processed := out.2.2,
         week_start := wswe.1, week_end := wswe.2 }, out.2.1)

/-- The site loop of `scrape_multiple_sites`, carrying the running index used
for the `scrapeResult{i+1}` keys and the shared seen-set.  `sites i` is the
browser's outcome for the `i`-th visit.  After each site the source re-adds
every returned article URL to the shared set. -/
def scrapeSitesFrom (env : JobEnv) (sites : Nat → SiteEnv) (max_articles : Nat)
    (week_start? week_end? : Option Int) :
    Nat → List String → List String → List (String × SiteResult)
  | _, [], _ => []
  | i, url :: rest, seen =>
      let out := scrape_single_site env (sites i) url max_articles week_start? week_end? seen
      let seen2 := out.1.articles.foldl (fun s a => addSeen s a.url) out.2
      ("scrapeResult" ++ toString (i + 1), out.1) ::
        scrapeSitesFrom env sites max_articles week_start? week_end? (i + 1) rest seen2

/-- `GenericWebScraper.scrape_multiple_sites`: sequential pass over the seed
URLs, producing one keyed `SiteResult` per URL (the Python dict is an
insertion-ordered association list).  `seen0` is `set(seen_urls or [])`. -/
def scrape_multiple_sites (env : JobEnv) (sites : Nat → SiteEnv)
    (urls : List String) (max_articles_per_url : Nat)
    (week_start? week_end? : Option Int) (seen0 : List String) :
    List (String × SiteResult) :=
  scrapeSitesFrom env sites max_articles_per_url week_start? week_end? 0 urls seen0

/-- All article source URLs of a job result, in output order. -/
def allArticleUrls (res : List (String × SiteResult)) : List String :=
  (res.map (fun p => p.2.articles.map (fun a => a.url))).flatten

/-! ## Lemmas about the URL classifier -/

/-- Whenever some definite-exclude pattern matches the lowercased URL, every
branch the classifier can take yields `false`: the early rejects and the
host check return `false` themselves, and the exclude stage fires before the
strong-signal stage is consulted. -/
lemma tables_exclude_false (excl strong : List Rx) (url base_url : String)
    (h : excl.any (fun r => research r (url.data.map pyLowerChar)) = true) :
    is_likely_article_url_tables excl strong url base_url = false := by
  simp [is_likely_article_url_tables, h]

/-- `List.any` only depends on the set of entries, not on their order. -/
lemma anyPerm {l1 l2 : List Rx} (f : Rx → Bool) (h : l1.Perm l2) :
    l1.any f = l2.any f := by
  cases ha : l1.any f <;> cases hb : l2.any f <;> try rfl
  · obtain ⟨x, hx, hfx⟩ := List.any_eq_true.mp hb
    have h1 : l1.any f = true := List.any_eq_true.mpr ⟨x, h.mem_iff.mpr hx, hfx⟩
    rw [ha] at h1
    exact h1
  · obtain ⟨x, hx, hfx⟩ := List.any_eq_true.mp ha
    have h2 : l2.any f = true := List.any_eq_true.mpr ⟨x, h.mem_iff.mp hx, hfx⟩
    rw [hb] at h2
    exact h2.symm

/-- The classifier's verdict is invariant under permuting the exclude and
strong-signal tables. -/
lemma tables_perm_invariant (excl strong : List Rx) (url base_url : String)
    (h1 : excl.Perm definite_excludes) (h2 : strong.Perm strong_signals) :
    is_likely_article_url_tables excl strong url base_url =
      is_likely_article_url url base_url := by
  unfold is_likely_article_url is_likely_article_url_tables
  rw [anyPerm _ h1, anyPerm _ h2]

/-- The pattern `r'/$'` matches every string that ends in a slash. -/
lemma research_slashEnd_append (l : List Char) :
    research slashEndRx (l ++ ['/']) = true := by
  induction l with
  | nil => decide
  | cons c rest ih => simp [research, ih]

/-- Lowercasing preserves a trailing slash. -/
lemma map_lower_trailing_slash (l : List Char) :
    (l ++ ['/']).map pyLowerChar = l.map pyLowerChar ++ ['/'] := by
  rw [List.map_append]
  rfl

/-- A URL ending in `'/'` matches some definite-exclude pattern. -/
lemma trailing_slash_exclude_match (url : String) (l : List Char)
    (h : url.data = l ++ ['/']) :
    definite_excludes.any (fun r => research r (url.data.map pyLowerChar)) = true := by
  apply List.any_eq_true.mpr
  refine ⟨slashEndRx, by simp [definite_excludes], ?_⟩
  rw [h, map_lower_trailing_slash]
  exact research_slashEnd_append _

/-- C3: a URL whose lowercased text matches any definite-exclude pattern is
classified `false`, whatever its origin and even if it also matches a
strong-signal pattern — the exclude stage is checked first and every
earlier branch also answers `false`. -/
theorem exclude_beats_strong_signal (url base_url : String)
    (h : definite_excludes.any (fun r => research r (url.data.map pyLowerChar)) = true) :
    is_likely_article_url url base_url = false :=
  tables_exclude_false definite_excludes strong_signals url base_url h

/-- Witness for C3: `https://example.com/news/feed` has the same host as its
origin, matches the strong signal `/news/` and the exclude `/feed`, and is
rejected. -/
theorem exclude_beats_strong_signal_witness :
    strong_signals.any
      (fun r => research r ("https://example.com/news/feed".data.map pyLowerChar)) = true ∧
    (pyUrlparse "https://example.com/news/feed".data).netloc =
      (pyUrlparse "https://example.com/news".data).netloc ∧
    is_likely_article_url "https://example.com/news/feed" "https://example.com/news" = false :=
  ⟨by decide, by decide,
   exclude_beats_strong_signal "https://example.com/news/feed" "https://example.com/news"
     (by decide)⟩

/-- C10: every URL whose text ends in the character `'/'` is classified
`false` — the `r'/$'` definite-exclude pattern rejects all trailing-slash
URLs, including date-directory URLs that match a strong-signal pattern. -/
theorem trailing_slash_always_rejected (url base_url : String) (l : List Char)
    (h : url.data = l ++ ['/']) :
    is_likely_article_url url base_url = false :=
  tables_exclude_false definite_excludes strong_signals url base_url
    (trailing_slash_exclude_match url l h)

/-- Witness for C10: the date-directory URL `https://example.com/2024/05/01/`
matches the strong signal `/\d4/\d2/\d2/` yet is rejected. -/
theorem trailing_slash_always_rejected_witness :
    strong_signals.any
      (fun r => research r ("https://example.com/2024/05/01/".data.map pyLowerChar)) = true ∧
    is_likely_article_url "https://example.com/2024/05/01/" "https://example.com" = false :=
  ⟨by decide,
   trailing_slash_always_rejected "https://example.com/2024/05/01/" "https://example.com"
    "https://example.com/2024/05/01".data (by decide)⟩

/-- C2 fails on the code: the candidate `https://example.com/news/analysis/`
from the spec's scenario is rejected, not accepted — its trailing slash
matches the definite-exclude pattern `r'/$'`. -/
theorem news_scenario_counterexample :
    is_likely_article_url "https://example.com/news/analysis/" "https://example.com/news" = false := by
  decide

/-- C2 (amended): with origin `https://example.com/news`, the classifier
accepts `https://example.com/news/report-2024-05-01`, rejects
`https://example.com/about` (definite-exclude `/about$`) and also rejects
`https://example.com/news/analysis/` (definite-exclude `r'/$'` on the
trailing slash), regardless of the ordering of entries within the exclude
and include pattern tables. -/
theorem news_scenario_amended (excl strong : List Rx)
    (h1 : excl.Perm definite_excludes) (h2 : strong.Perm strong_signals) :
    is_likely_article_url_tables excl strong
      "https://example.com/news/report-2024-05-01" "https://example.com/news" = true ∧
    is_likely_article_url_tables excl strong
      "https://example.com/about" "https://example.com/news" = false ∧
    is_likely_article_url_tables excl strong
      "https://example.com/news/analysis/" "https://example.com/news" = false := by
  rw [tables_perm_invariant _ _ _ _ h1 h2, tables_perm_invariant _ _ _ _ h1 h2,
      tables_perm_invariant _ _ _ _ h1 h2]
  refine ⟨by decide, by decide, by decide⟩

/-- Witness for the amended C2, at the identity permutation of both tables. -/
theorem news_scenario_amended_witness :
    is_likely_article_url_tables definite_excludes strong_signals
      "https://example.com/news/report-2024-05-01" "https://example.com/news" = true ∧
    is_likely_article_url_tables definite_excludes strong_signals
      "https://example.com/about" "https://example.com/news" = false ∧
    is_likely_article_url_tables definite_excludes strong_signals
      "https://example.com/news/analysis/" "https://example.com/news" = false :=
  news_scenario_amended definite_excludes strong_signals (List.Perm.refl _) (List.Perm.refl _)

/-! ## Claims about the temporal filter, the extractor and the default window -/

/-- C4: the temporal filter includes every record whose date string is empty
or fails to parse, and for a date string the reader does parse the filter
answers `true` exactly when the UTC-normalised instant lies in the half-open
window `[week_start, week_end)` (naive datetimes are read as UTC). -/
theorem week_window_spec (parse : String → Option PyDateTime) (ds : String)
    (week_start week_end : Int) :
    ((ds = "" ∨ parse ds = none) →
      is_within_week_window parse ds week_start week_end = true) ∧
    (∀ d : PyDateTime, ds ≠ "" → parse ds = some d →
      (is_within_week_window parse ds week_start week_end = true ↔
        (week_start ≤ toUtc d ∧ toUtc d < week_end))) := by
  constructor
  · rintro (h | h)
    · simp [is_within_week_window, h]
    · by_cases hds : ds = "" <;> simp [is_within_week_window, hds, h]
  · intro d hds hd
    simp [is_within_week_window, hds, hd]

/-- A concrete date reader for the temporal-filter witness: it parses exactly
one date string, to a naive datetime at 5 seconds past the epoch. -/
def parseW : String → Option PyDateTime :=
  fun s => if s = "2024-05-03" then some { wall := 5, tz := none } else none

/-- Witness for C4: an empty date, an unparsable date, and a parsed naive
date checked against the window `[0, 10)`. -/
theorem week_window_spec_witness :
    is_within_week_window parseW "" 0 10 = true ∧
    is_within_week_window parseW "soon" 0 10 = true ∧
    (is_within_week_window parseW "2024-05-03" 0 10 = true ↔
      (0 ≤ toUtc { wall := 5, tz := none } ∧ toUtc { wall := 5, tz := none } < 10)) :=
  ⟨(week_window_spec parseW "" 0 10).1 (Or.inl rfl),
   (week_window_spec parseW "soon" 0 10).1 (Or.inr (by decide)),
   (week_window_spec parseW "2024-05-03" 0 10).2 { wall := 5, tz := none }
     (by decide) (by decide)⟩

/-- C5 fails on the code: on an internal failure the returned record does
carry the sentinel title, but its body is the string `"Error: <message>"`,
not the empty string the claim asserts. -/
theorem extract_failure_body_not_empty :
    (extract_article_content (Except.error "boom") "https://example.com/a").title =
      "Error extracting content" ∧
    (extract_article_content (Except.error "boom") "https://example.com/a").content ≠ "" := by
  decide

/-- C5 (amended): the extractor never propagates a failure — it is a total
function into records — and on any internal failure it returns the record
with the sentinel `"Error extracting content"` title, the body
`"Error: " ++ message`, and empty date and image fields. -/
theorem extract_failure_record (e url : String) :
    extract_article_content (Except.error e) url =
      { title := "Error extracting content", date := "", content := "Error: " ++ e,
        image := "", url := url } :=
  rfl

/-- C6: when the page has an `og:title` meta whose content, once stripped,
is longer than 5 characters, the title extractor returns that stripped
content, regardless of the document `<title>` — the `og:title` strategy is
tried first. -/
theorem og_title_priority (soup : Soup) (e et : Element) (X : String)
    (hog : soup.metaOgTitle = some e) (hx : e.getD "content" "" = X)
    (_ht : soup.titleTag = some et) (hlen : 5 < (pyStrip X).length) :
    extract_title_generic soup = pyStrip X := by
  have hne : X ≠ "" := by
    intro h0
    rw [h0] at hlen
    revert hlen
    decide
  unfold extract_title_generic
  rw [hog]
  simp [goTitle, titleFrom, hx, pyOrS, hne, hlen]

/-- Elements for the title-priority witness: an `og:title` meta carrying
`content="Example Headline"` and a document `<title>` with different text. -/
def elOgW : Element := { attrs := [("content", "Example Headline")], text := "" }

def elTitleW : Element := { attrs := [], text := "A completely different doc title" }

def soupTitleW : Soup :=
  { metaOgTitle := some elOgW, metaTwitterTitle := none, h1 := none, h2 := none,
    titleClassSel := none, titleTag := some elTitleW, timeDatetime := none,
    metaPublishedTime := none, metaPubdate := none, dateClassSel := none,
    contentDivClass := none, contentArticle := none, contentMain := none,
    contentRoleMain := none, contentDivId := none, allPTexts := [],
    metaOgImage := none, metaTwitterImage := none, articleImg := none,
    firstImg := none }

/-- Witness for C6 on the concrete page fixture. -/
theorem og_title_priority_witness :
    extract_title_generic soupTitleW = "Example Headline" :=
  (og_title_priority soupTitleW elOgW elTitleW "Example Headline" rfl (by decide) rfl
    (by decide)).trans (by decide)

/-- Both branches of `scrape_single_site` publish the resolved default
window in the result when the caller passes no window. -/
lemma scrape_single_site_default_window (env : JobEnv) (site : SiteEnv) (url : String)
    (m : Nat) (seen : List String) :
    (scrape_single_site env site url m none none seen).1.week_start =
      defaultWeekStart env.now ∧
    (scrape_single_site env site url m none none seen).1.week_end =
      defaultWeekEnd env.now := by
  cases hnav : site.nav <;> simp [scrape_single_site, hnav]

/-- C9: with no caller-supplied window, the window `scrape_single_site`
computes and reports is the current UTC calendar week: `week_start` is a
Monday-midnight instant (epoch phase `345600 = 4 * 86400`, epoch day 4
being Monday 1970-01-05), it is the most recent such instant (at most and
never more than one week before `now`), and `week_end` is exactly 7 days
later. -/
theorem default_window_current_week (env : JobEnv) (site : SiteEnv) (url : String)
    (m : Nat) (seen : List String) :
    (scrape_single_site env site url m none none seen).1.week_start % 604800 = 345600 ∧
    (scrape_single_site env site url m none none seen).1.week_start ≤ env.now ∧
    env.now < (scrape_single_site env site url m none none seen).1.week_end ∧
    (scrape_single_site env site url m none none seen).1.week_end =
      (scrape_single_site env site url m none none seen).1.week_start + 7 * 86400 := by
  obtain ⟨h1, h2⟩ := scrape_single_site_default_window env site url m seen
  rw [h1, h2]
  unfold defaultWeekEnd defaultWeekStart pyWeekday epochDay
  omega

/-! ## Lemmas about the orchestrator -/

/-- The extractor always reports the page URL it was given. -/
lemma extract_article_content_url (f : Except String Soup) (u : String) :
    (extract_article_content f u).url = u := by
  cases f <;> rfl

/-- Membership after a set-insert. -/
lemma addSeen_mem (seen : List String) (u x : String) :
    x ∈ addSeen seen u ↔ x ∈ seen ∨ x = u := by
  unfold addSeen
  split
  next h =>
    constructor
    · exact Or.inl
    · rintro (hx | rfl)
      · exact hx
      · exact h
  next h =>
    rw [List.mem_cons]
    tauto

/-- The final seen-set of the candidate loop is the input seen-set plus the
URLs of the accepted articles. -/
lemma processArticles_seen_mem (env : JobEnv) (f : String → Except String Soup)
    (ws we : Int) :
    ∀ (links seen : List String) (x : String),
      x ∈ (processArticles env f ws we links seen).2.1 ↔
        x ∈ seen ∨ x ∈ (processArticles env f ws we links seen).1.map (fun a => a.url) := by
  intro links
  induction links with
  | nil => intro seen x; simp [processArticles]
  | cons link rest ih =>
      intro seen x
      by_cases h1 : link ∈ seen
      · simp only [processArticles, if_pos h1]
        exact ih seen x
      · cases h2 : is_within_week_window env.parse
            (extract_article_content (f link) link).date ws we
        · simp only [processArticles, if_neg h1, h2, Bool.not_false, if_pos]
          exact ih seen x
        · simp only [processArticles, if_neg h1, h2, Bool.not_true, Bool.false_eq_true,
            if_false, List.map_cons, List.mem_cons, extract_article_content_url]
          rw [ih (addSeen seen link) x, addSeen_mem]
          tauto

/-- The accepted articles of the candidate loop have pairwise distinct URLs,
none of which was in the incoming seen-set. -/
lemma processArticles_nodup_fresh (env : JobEnv) (f : String → Except String Soup)
    (ws we : Int) :
    ∀ (links seen : List String),
      ((processArticles env f ws we links seen).1.map (fun a => a.url)).Nodup ∧
      ∀ x ∈ (processArticles env f ws we links seen).1.map (fun a => a.url), x ∉ seen := by
  intro links
  induction links with
  | nil => intro seen; simp [processArticles]
  | cons link rest ih =>
      intro seen
      by_cases h1 : link ∈ seen
      · simp only [processArticles, if_pos h1]
        exact ih seen
      · cases h2 : is_within_week_window env.parse
            (extract_article_content (f link) link).date ws we
        · simp only [processArticles, if_neg h1, h2, Bool.not_false, if_pos]
          exact ih seen
        · obtain ⟨ihn, ihf⟩ := ih (addSeen seen link)
          simp only [processArticles, if_neg h1, h2, Bool.not_true, Bool.false_eq_true,
            if_false, List.map_cons, extract_article_content_url]
          constructor
          · rw [List.nodup_cons]
            refine ⟨fun hmem => ?_, ihn⟩
            exact ihf link hmem ((addSeen_mem seen link link).mpr (Or.inr rfl))
          · intro x hx
            rcases List.mem_cons.mp hx with rfl | hx
            · exact h1
            · intro hxs
              exact ihf x hx ((addSeen_mem seen link x).mpr (Or.inl hxs))

/-- Transfer of the two loop invariants to `scrape_single_site`. -/
lemma scrape_single_site_articles (env : JobEnv) (site : SiteEnv) (url : String)
    (m : Nat) (ws? we? : Option Int) (seen : List String) :
    (((scrape_single_site env site url m ws? we? seen).1.articles.map (fun a => a.url)).Nodup) ∧
    (∀ x ∈ (scrape_single_site env site url m ws? we? seen).1.articles.map (fun a => a.url),
      x ∉ seen) ∧
    (∀ x, x ∈ (scrape_single_site env site url m ws? we? seen).2 ↔
      x ∈ seen ∨
        x ∈ (scrape_single_site env site url m ws? we? seen).1.articles.map (fun a => a.url)) := by
  cases hnav : site.nav with
  | error e => simp [scrape_single_site, hnav]
  | ok links0 =>
      simp only [scrape_single_site, hnav]
      refine ⟨(processArticles_nodup_fresh env site.fetchSoup _ _ _ seen).1,
        (processArticles_nodup_fresh env site.fetchSoup _ _ _ seen).2,
        fun x => processArticles_seen_mem env site.fetchSoup _ _ _ seen x⟩

/-- Membership after re-adding a batch of article URLs to the seen-set. -/
lemma foldl_addSeen_mem :
    ∀ (l : List Article) (s : List String) (x : String),
      x ∈ l.foldl (fun acc a => addSeen acc a.url) s ↔
        x ∈ s ∨ ∃ a, a ∈ l ∧ a.url = x := by
  intro l
  induction l with
  | nil => intro s x; simp
  | cons a t ih =>
      intro s x
      simp only [List.foldl_cons, List.mem_cons]
      rw [ih, addSeen_mem]
      constructor
      · rintro (((hs | rfl) | ⟨b, hb, rfl⟩))
        · exact Or.inl hs
        · exact Or.inr ⟨a, Or.inl rfl, rfl⟩
        · exact Or.inr ⟨b, Or.inr hb, rfl⟩
      · rintro (hs | ⟨b, (rfl | hb), rfl⟩)
        · exact Or.inl (Or.inl hs)
        · exact Or.inl (Or.inr rfl)
        · exact Or.inr ⟨b, hb, rfl⟩

/-- `allArticleUrls` of a cons. -/
lemma allArticleUrls_cons (k : String) (r : SiteResult) (res : List (String × SiteResult)) :
    allArticleUrls ((k, r) :: res) = r.articles.map (fun a => a.url) ++ allArticleUrls res := by
  simp [allArticleUrls]

/-- Invariant of the site loop: across all produced results the article URLs
are pairwise distinct and disjoint from the incoming seen-set. -/
lemma scrapeSitesFrom_nodup (env : JobEnv) (sites : Nat → SiteEnv) (maxA : Nat)
    (ws? we? : Option Int) :
    ∀ (urls : List String) (i0 : Nat) (seen : List String),
      (allArticleUrls (scrapeSitesFrom env sites maxA ws? we? i0 urls seen)).Nodup ∧
      ∀ x ∈ allArticleUrls (scrapeSitesFrom env sites maxA ws? we? i0 urls seen), x ∉ seen := by
  intro urls
  induction urls with
  | nil => intro i0 seen; simp [scrapeSitesFrom, allArticleUrls]
  | cons u rest ih =>
      intro i0 seen
      obtain ⟨hn, hf, hs⟩ := scrape_single_site_articles env (sites i0) u maxA ws? we? seen
      simp only [scrapeSitesFrom]
      rw [allArticleUrls_cons]
      obtain ⟨ihn, ihf⟩ := ih (i0 + 1)
        (((scrape_single_site env (sites i0) u maxA ws? we? seen).1.articles).foldl
          (fun s a => addSeen s a.url) (scrape_single_site env (sites i0) u maxA ws? we? seen).2)
      constructor
      · refine List.Nodup.append hn ihn ?_
        intro x hxA hxB
        refine ihf x hxB ?_
        rw [foldl_addSeen_mem]
        obtain ⟨a, ha, rfl⟩ := List.mem_map.mp hxA
        exact Or.inr ⟨a, ha, rfl⟩
      · intro x hx
        rcases List.mem_append.mp hx with hxA | hxB
        · exact hf x hxA
        · intro hxseen
          refine ihf x hxB ?_
          rw [foldl_addSeen_mem]
          exact Or.inl ((hs x).mpr (Or.inl hxseen))

/-- C7: within one job no two produced article records share a source URL —
the whole-job seen-set is consulted before an article is processed and every
accepted URL is added to it, so the flattened URL list over all
`SiteResult`s is duplicate-free. -/
theorem job_dedup (env : JobEnv) (sites : Nat → SiteEnv) (urls : List String)
    (maxA : Nat) (ws? we? : Option Int) (seen0 : List String) :
    (allArticleUrls (scrape_multiple_sites env sites urls maxA ws? we? seen0)).Nodup :=
  (scrapeSitesFrom_nodup env sites maxA ws? we? urls 0 seen0).1

/-- Every article appended by the candidate loop stores the digest of its own
title and URL. -/
lemma processArticles_hash (env : JobEnv) (f : String → Except String Soup)
    (ws we : Int) :
    ∀ (links seen : List String) (a : Article),
      a ∈ (processArticles env f ws we links seen).1 →
      a.raw_hash = env.hashHex (a.title ++ a.url) := by
  intro links
  induction links with
  | nil => intro seen a ha; simp [processArticles] at ha
  | cons link rest ih =>
      intro seen a ha
      by_cases h1 : link ∈ seen
      · simp only [processArticles, if_pos h1] at ha
        exact ih seen a ha
      · cases h2 : is_within_week_window env.parse
            (extract_article_content (f link) link).date ws we
        · simp only [processArticles, if_neg h1, h2, Bool.not_false, if_pos] at ha
          exact ih seen a ha
        · simp only [processArticles, if_neg h1, h2, Bool.not_true, Bool.false_eq_true,
            if_false] at ha
          rcases List.mem_cons.mp ha with rfl | ha
          · simp [extract_article_content_url]
          · exact ih (addSeen seen link) a ha

/-- Transfer of the digest invariant to one site. -/
lemma scrape_single_site_hash (env : JobEnv) (site : SiteEnv) (url : String)
    (m : Nat) (ws? we? : Option Int) (seen : List String) (a : Article)
    (ha : a ∈ (scrape_single_site env site url m ws? we? seen).1.articles) :
    a.raw_hash = env.hashHex (a.title ++ a.url) := by
  cases hnav : site.nav with
  | error e => simp [scrape_single_site, hnav] at ha
  | ok links0 =>
      simp only [scrape_single_site, hnav] at ha
      exact processArticles_hash env site.fetchSoup _ _ _ seen a ha

/-- Transfer of the digest invariant to the site loop. -/
lemma scrapeSitesFrom_hash (env : JobEnv) (sites : Nat → SiteEnv) (maxA : Nat)
    (ws? we? : Option Int) :
    ∀ (urls : List String) (i0 : Nat) (seen : List String) (p : String × SiteResult),
      p ∈ scrapeSitesFrom env sites maxA ws? we? i0 urls seen →
      ∀ a ∈ p.2.articles, a.raw_hash = env.hashHex (a.title ++ a.url) := by
  intro urls
  induction urls with
  | nil => intro i0 seen p hp; simp [scrapeSitesFrom] at hp
  | cons u rest ih =>
      intro i0 seen p hp a ha
      rw [scrapeSitesFrom] at hp
      rcases List.mem_cons.mp hp with rfl | hp
      · exact scrape_single_site_hash env (sites i0) u maxA ws? we? seen a ha
      · exact ih (i0 + 1) _ p hp a ha

/-- C8: for every article record a job produces, the stored `raw_hash` is
exactly the digest of `title ++ source_url` recomputed with the same hash
function — the attachment is deterministic and round-trips. -/
theorem raw_hash_roundtrip (env : JobEnv) (sites : Nat → SiteEnv) (urls : List String)
    (maxA : Nat) (ws? we? : Option Int) (seen0 : List String) (p : String × SiteResult)
    (hp : p ∈ scrape_multiple_sites env sites urls maxA ws? we? seen0)
    (a : Article) (ha : a ∈ p.2.articles) :
    a.raw_hash = env.hashHex (a.title ++ a.url) :=
  scrapeSitesFrom_hash env sites maxA ws? we? urls 0 seen0 p hp a ha

/-- Both branches of `scrape_single_site` report the seed URL as `base_url`. -/
lemma scrape_single_site_base_url (env : JobEnv) (site : SiteEnv) (url : String)
    (m : Nat) (ws? we? : Option Int) (seen : List String) :
    (scrape_single_site env site url m ws? we? seen).1.base_url = url := by
  cases hnav : site.nav <;> simp [scrape_single_site, hnav]

/-- A navigation failure is captured in the result: error string recorded,
article list empty. -/
lemma scrape_single_site_error_fields (env : JobEnv) (site : SiteEnv) (url : String)
    (m : Nat) (ws? we? : Option Int) (seen : List String) (e : String)
    (h : site.nav = Except.error e) :
    (scrape_single_site env site url m ws? we? seen).1.error = some e ∧
    (scrape_single_site env site url m ws? we? seen).1.articles = [] := by
  simp [scrape_single_site, h]

/-- Shape invariant of the site loop: one keyed result per URL, in order,
with failures isolated to their own entry. -/
lemma scrapeSitesFrom_shape (env : JobEnv) (sites : Nat → SiteEnv) (maxA : Nat)
    (ws? we? : Option Int) :
    ∀ (urls : List String) (i0 : Nat) (seen : List String),
      (scrapeSitesFrom env sites maxA ws? we? i0 urls seen).length = urls.length ∧
      ∀ j u, urls.get? j = some u →
        ∃ r : SiteResult,
          (scrapeSitesFrom env sites maxA ws? we? i0 urls seen).get? j =
            some ("scrapeResult" ++ toString (i0 + j + 1), r) ∧
          r.base_url = u ∧
          ∀ e, (sites (i0 + j)).nav = Except.error e → r.error = some e ∧ r.articles = [] := by
  intro urls
  induction urls with
  | nil =>
      intro i0 seen
      refine ⟨rfl, fun j u hu => ?_⟩
      simp at hu
  | cons u0 rest ih =>
      intro i0 seen
      constructor
      · simp only [scrapeSitesFrom, List.length_cons]
        rw [(ih (i0 + 1) _).1]
      · intro j u hu
        cases j with
        | zero =>
            simp only [List.get?_cons_zero, Option.some_inj] at hu
            subst hu
            refine ⟨(scrape_single_site env (sites i0) u0 maxA ws? we? seen).1, ?_,
              scrape_single_site_base_url env (sites i0) u0 maxA ws? we? seen, ?_⟩
            · simp [scrapeSitesFrom]
            · intro e he
              simpa using
                scrape_single_site_error_fields env (sites i0) u0 maxA ws? we? seen e
                  (by simpa using he)
        | succ j' =>
            simp only [List.get?_cons_succ] at hu
            obtain ⟨r, hr, hb, he⟩ := (ih (i0 + 1)
              (((scrape_single_site env (sites i0) u0 maxA ws? we? seen).1.articles).foldl
                (fun s a => addSeen s a.url)
                (scrape_single_site env (sites i0) u0 maxA ws? we? seen).2)).2 j' u hu
            have harith : i0 + 1 + j' + 1 = i0 + (j' + 1) + 1 := by omega
            have harith2 : i0 + 1 + j' = i0 + (j' + 1) := by omega
            refine ⟨r, ?_, hb, ?_⟩
            · rw [scrapeSitesFrom]
              simp only [List.get?_cons_succ]
              rw [hr, harith]
            · rw [← harith2]
              exact he

/-- C1: a job returns exactly one `SiteResult` per input URL, keyed
`scrapeResult1`, `scrapeResult2`, … in input order, each carrying its own
seed URL; a navigation failure of one seed is recorded as that entry's
error string with an empty article list, and the loop still produces an
entry for every other seed — the batch is never aborted. -/
theorem job_one_result_per_url (env : JobEnv) (sites : Nat → SiteEnv)
    (urls : List String) (maxA : Nat) (ws? we? : Option Int) (seen0 : List String) :
    (scrape_multiple_sites env sites urls maxA ws? we? seen0).length = urls.length ∧
    ∀ i u, urls.get? i = some u →
      ∃ r : SiteResult,
        (scrape_multiple_sites env sites urls maxA ws? we? seen0).get? i =
          some ("scrapeResult" ++ toString (i + 1), r) ∧
        r.base_url = u ∧
        ∀ e, (sites i).nav = Except.error e → r.error = some e ∧ r.articles = [] := by
  have h := scrapeSitesFrom_shape env sites maxA ws? we? urls 0 seen0
  simpa [scrape_multiple_sites] using h

def soupEmptyW : Soup :=
  { metaOgTitle := none, metaTwitterTitle := none, h1 := none, h2 := none,
    titleClassSel := none, titleTag := none, timeDatetime := none,
    metaPublishedTime := none, metaPubdate := none, dateClassSel := none,
    contentDivClass := none, contentArticle := none, contentMain := none,
    contentRoleMain := none, contentDivId := none, allPTexts := [],
    metaOgImage := none, metaTwitterImage := none, articleImg := none,
    firstImg := none }

def envW : JobEnv :=
  { parse := fun _ => none, hashHex := fun s => s, now := 1714953600,
    nowIso := "2024-05-06T00:00:00+00:00" }

def siteFailW : SiteEnv :=
  { nav := Except.error "goto failed", fetchSoup := fun _ => Except.ok soupEmptyW }

def siteOkW : SiteEnv :=
  { nav := Except.ok ["https://b.example/news/one", "https://b.example/news/one",
      "https://b.example/news/two"],
    fetchSoup := fun _ => Except.ok soupEmptyW }

def sitesW : Nat → SiteEnv
  | 0 => siteFailW
  | _ + 1 => siteOkW

def urlsW : List String := ["https://a.example/start", "https://b.example/news"]

/-- The first article the fixture job produces, written out literally. -/
def artOneW : Article :=
  { title := "No title found", date := "", content := "No content found", image := "",
    url := "https://b.example/news/one",
    raw_hash := "No title foundhttps://b.example/news/one",
    discovered_at := "2024-05-06T00:00:00+00:00" }

def artTwoW : Article :=
  { title := "No title found", date := "", content := "No content found", image := "",
    url := "https://b.example/news/two",
    raw_hash := "No title foundhttps://b.example/news/two",
    discovered_at := "2024-05-06T00:00:00+00:00" }

/-- The result the fixture job produces for its second seed URL. -/
def resultOkW : SiteResult :=
  { base_url := "https://b.example/news", articles := [artOneW, artTwoW], error := none,
    total_articles_found := 3, successfully_processed := 2, week_start := 0,
    week_end := 604800 }

/-- Witness for C1 on a concrete two-seed job whose first navigation fails:
two entries, the failure captured in entry 0, entry 1 still produced. -/
theorem job_one_result_per_url_witness :
    (scrape_multiple_sites envW sitesW urlsW 20 (some 0) (some 604800) []).length = 2 ∧
    ((scrape_multiple_sites envW sitesW urlsW 20 (some 0) (some 604800) []).get? 0).map
      (fun p => p.2.error) = some (some "goto failed") ∧
    ((scrape_multiple_sites envW sitesW urlsW 20 (some 0) (some 604800) []).get? 1).map
      (fun p => p.2.base_url) = some "https://b.example/news" := by
  obtain ⟨hlen, hidx⟩ := job_one_result_per_url envW sitesW urlsW 20 (some 0) (some 604800) []
  refine ⟨hlen, ?_, ?_⟩
  · obtain ⟨r, hg, _hb, he⟩ := hidx 0 "https://a.example/start" rfl
    rw [hg]
    simp [(he "goto failed" rfl).1]
  · obtain ⟨r, hg, hb, _he⟩ := hidx 1 "https://b.example/news" rfl
    rw [hg]
    simp [hb]

/-- Witness for C8 on the fixture job: the stored `raw_hash` of a concrete
produced article equals the recomputed digest of its title and URL. -/
theorem raw_hash_roundtrip_witness :
    artOneW.raw_hash = envW.hashHex (artOneW.title ++ artOneW.url) :=
  raw_hash_roundtrip envW sitesW urlsW 20 (some 0) (some 604800) []
    ("scrapeResult2", resultOkW) (by decide) artOneW (by decide)
